import Mathlib

/-!
Shallow embedding of the training / evaluation code of the repository
(`src/unnamed/part_000`, a training notebook, and
`src/intro-to-pytorch/Part 5 - Inference and Validation (Exercises).ipynb`).

Tensors are embedded as lists of rationals (`List ℚ`) except where the
property is genuinely about `exp` / `log`, which is embedded over `ℝ`.
The framework pieces the notebooks call (`optim.SGD`, `nn.NLLLoss`,
`loss.backward`, `optimizer.zero_grad`, `nn.Dropout`, `nn.LogSoftmax`)
are not part of this repository; they are modelled from the spec, as
marked in their doc comments.  The training and validation loops are
translated statement by statement from the notebook cells.
-/

/-- A Parameter Tensor: a mutable value together with its gradient
accumulator, which is either absent (`none`) or a tensor of the same
shape. -/
structure Param where
  value : List ℚ
  grad : Option (List ℚ)
deriving Repr, DecidableEq

/-- Modelled from the spec (§4.3): the Gradient Engine writes into a
gradient accumulator "accumulating additively into any pre-existing
gradient value"; an absent accumulator is simply set. -/
def accumGrad (old : Option (List ℚ)) (g : List ℚ) : List ℚ :=
  match old with
  | none => g
  | some h => List.zipWith (fun a b => a + b) h g

/-- Modelled from the spec (§4.3): `loss.backward()` restricted to one
parameter tensor: the freshly computed gradient `g` is accumulated into
the tensor's gradient accumulator. -/
def backwardP (g : List ℚ) (p : Param) : Param :=
  { p with grad := some (accumGrad p.grad g) }

/-- Modelled from the spec (§4.4): `optimizer.zero_grad()` restricted to
one parameter tensor: resets the gradient accumulator to zero (or leaves
it absent). -/
def zeroGradP (p : Param) : Param :=
  { p with grad := p.grad.map (fun g => g.map (fun _ => 0)) }

/-- Modelled from the spec (§4.4): one `optimizer.step()` of plain
stochastic descent (`optim.SGD(model.parameters(), lr=α)`) on one
parameter tensor: `p ← p − α·g` elementwise, in place; a tensor with no
gradient is left untouched. -/
def sgdStepP (α : ℚ) (p : Param) : Param :=
  match p.grad with
  | none => p
  | some g => { p with value := List.zipWith (fun v gi => v - α * gi) p.value g }

/-- `optimizer.step()` over the whole model: the update is applied to
every Parameter Tensor of the model. -/
def sgdStepModel (α : ℚ) (ps : List Param) : List Param :=
  ps.map (sgdStepP α)

/-- Modelled from the spec (§4.2): for each example of the batch, select
the log-probability at the index of its true label and negate it; an
index outside `[0, num_classes)` is an IndexError-class failure. -/
def nllPick (rows : List (List ℚ)) (labels : List Nat) : Except String (List ℚ) :=
  match rows, labels with
  | [], _ => .ok []
  | _, [] => .ok []
  | r :: rs, l :: ls =>
    match r[l]? with
    | some x => (nllPick rs ls).map (fun t => (-x) :: t)
    | none => .error "IndexError"

/-- Modelled from the spec (§4.2): `nn.NLLLoss()` — the arithmetic mean,
over the batch, of the negated log-probability at each example's true
label; fails with an IndexError-class condition on an out-of-range
label. -/
def nllLoss (logps : List (List ℚ)) (labels : List Nat) : Except String ℚ :=
  (nllPick logps labels).map (fun picked => picked.sum / (picked.length : ℚ))

/-- Index of the first maximum of a row; tail-recursive scan carrying
the best index and best value seen so far. -/
def argmaxAux : List ℚ → Nat → Nat → ℚ → Nat
  | [], _, bi, _ => bi
  | x :: xs, i, bi, bv => if bv < x then argmaxAux xs (i + 1) i x else argmaxAux xs (i + 1) bi bv

/-- `ps.topk(1, dim=1)` index component: the class index of the largest
entry of a row. -/
def argmax : List ℚ → Nat
  | [] => 0
  | x :: xs => argmaxAux xs 1 0 x

/-- `torch.mean(equals.type(torch.FloatTensor))`: the fraction of
positions where the predicted class index equals the true label. -/
def accuracyOf (preds : List Nat) (labels : List Nat) : ℚ :=
  (List.zipWith (fun p l => if p = l then (1 : ℚ) else 0) preds labels).sum
    / (preds.length : ℚ)

/-- The two-state mode flag of a Model: `model.train()` / `model.eval()`. -/
inductive Mode where
  | train : Mode
  | eval : Mode
deriving Repr, DecidableEq

/-- `y = xW + b` over ℚ: one affine layer, one output per weight row. -/
def linearQ (W : List (List ℚ)) (b : List ℚ) (x : List ℚ) : List ℚ :=
  List.zipWith (fun w bi => (List.zipWith (fun wi xi => wi * xi) w x).sum + bi) W b

/-- `F.relu` on one entry. -/
def reluQ (x : ℚ) : ℚ := max x 0

/-- Modelled from the spec (§4.5): `nn.Dropout(p)` — during a training
pass each unit is independently zeroed (mask bit `false`) with
probability `p` and surviving activations are rescaled by `1/(1−p)`;
during an evaluation pass no zeroing occurs.  The randomness is a
stream of mask bits, consumed only in train-mode. -/
def dropout (p : ℚ) (mode : Mode) (rng : List Bool) (xs : List ℚ) : List ℚ × List Bool :=
  match mode with
  | Mode.eval => (xs, rng)
  | Mode.train =>
    (List.zipWith (fun keep x => if keep then x / (1 - p) else 0) (rng.take xs.length) xs,
     rng.drop xs.length)

/-- The dropout-bearing `Network` of the Part 5 notebook:
fc1 784→256, fc2 256→128, fc3 128→64, fc4 64→10,
`nn.Dropout(p=0.2)` after each hidden activation. -/
structure Network where
  fc1W : List (List ℚ)
  fc1b : List ℚ
  fc2W : List (List ℚ)
  fc2b : List ℚ
  fc3W : List (List ℚ)
  fc3b : List ℚ
  fc4W : List (List ℚ)
  fc4b : List ℚ

/-- `Network.forward` translated from the notebook:
`x = dropout(relu(fc1 x)); x = dropout(relu(fc2 x));
x = dropout(relu(fc3 x)); x = log_softmax(fc4 x)`.
The final `F.log_softmax` is the numeric kernel `lsm`, abstracted here
because these claims only concern the surrounding control flow; the
dropout probability is the source's `p = 0.2 = 1/5`. -/
def Network.forward (lsm : List ℚ → List ℚ) (net : Network) (mode : Mode)
    (rng : List Bool) (x : List ℚ) : List ℚ × List Bool :=
  let h1 := (linearQ net.fc1W net.fc1b x).map reluQ
  let d1 := dropout (1/5) mode rng h1
  let h2 := (linearQ net.fc2W net.fc2b d1.1).map reluQ
  let d2 := dropout (1/5) mode d1.2 h2
  let h3 := (linearQ net.fc3W net.fc3b d2.1).map reluQ
  let d3 := dropout (1/5) mode d2.2 h3
  (lsm (linearQ net.fc4W net.fc4b d3.1), d3.2)

/-- `model(images)` on a whole batch, threading the mask-bit stream
through the rows. -/
def Network.forwardBatch (lsm : List ℚ → List ℚ) (net : Network) (mode : Mode)
    (rng : List Bool) : List (List ℚ) → List (List ℚ) × List Bool
  | [] => ([], rng)
  | x :: xs =>
    let y := Network.forward lsm net mode rng x
    let ys := Network.forwardBatch lsm net mode y.2 xs
    (y.1 :: ys.1, ys.2)

/-- The session state an evaluation sweep could in principle mutate:
the model's parameters, its mode flag, and the mask-bit stream. -/
structure Session where
  net : Network
  mode : Mode
  rng : List Bool

/-- The Part 5 Classifier-loop validation block, translated from the
notebook cell:
`testset, testlabels = next(iter(testloader))` (a single batch),
`test_out = model(testset)`, `test_ps = torch.exp(test_out)`,
`top_p, top_class = test_ps.topk(1, dim=1)`,
`equals = top_class == testlabels.view(*top_class.shape)`,
`accuracy = torch.mean(equals.type(torch.FloatTensor))`.
The model's forward `fwd` and `torch.exp` (as `e`) are parameters; the
block contains no `torch.no_grad()` scope and consumes only the head
batch of the loader. -/
def classifierValidation (e : ℚ → ℚ) (fwd : List (List ℚ) → List (List ℚ))
    (testloader : List (List (List ℚ) × List Nat)) : ℚ :=
  let batch := testloader.headD ([], [])
  let test_out := fwd batch.1
  let test_ps := test_out.map (List.map e)
  let top_class := test_ps.map argmax
  accuracyOf top_class batch.2

/-- The same validation block run as a state-passing evaluation sweep
over a `Session` holding the dropout-bearing `Network`: the block only
reads the parameters and, through `forwardBatch`, threads the mask-bit
stream; it contains no backward, step, zero-grad, or mode change. -/
def evalSweep (lsm : List ℚ → List ℚ) (e : ℚ → ℚ) (s : Session)
    (testloader : List (List (List ℚ) × List Nat)) : ℚ × Session :=
  let batch := testloader.headD ([], [])
  let fb := Network.forwardBatch lsm s.net s.mode s.rng batch.1
  let test_ps := fb.1.map (List.map e)
  let top_class := test_ps.map argmax
  (accuracyOf top_class batch.2, { s with rng := fb.2 })

/-- The per-epoch validation block of the dropout training loop,
translated from the notebook cell:
`model.eval()`, `images, label = next(iter(testloader))`,
`test = model(images)`, `test_ps = torch.exp(output)`,
`top_p, top_class = test_ps.topk(1, dim=1)`,
`equals = top_class == labels.view(*top_class.shape)`,
`accuracy = torch.mean(equals.type(torch.FloatTensor))`.
Here `output` and `labels` are the last training batch's forward output
and labels, still in scope from the inner loop; `test` is computed from
the fresh test batch but never used afterwards. -/
def dropoutValidationBlock (lsm : List ℚ → List ℚ) (e : ℚ → ℚ) (s : Session)
    (output : List (List ℚ)) (labels : List Nat)
    (testloader : List (List (List ℚ) × List Nat)) : ℚ × Session :=
  let s1 : Session := { s with mode := Mode.eval }
  let batch := testloader.headD ([], [])
  let fb := Network.forwardBatch lsm s1.net s1.mode s1.rng batch.1
  let _test := fb.1
  let test_ps := output.map (List.map e)
  let top_class := test_ps.map argmax
  (accuracyOf top_class labels, { s1 with rng := fb.2 })

/-- The mode in which each forward pass of one epoch's inner training
loop runs: the mode is not changed inside the inner loop. -/
def epochModes (m : Mode) (nb : Nat) : List Mode := List.replicate nb m

/-- The sequence of modes of the training-step forward passes of the
dropout training loop, one entry per training batch, epochs in order:
each epoch runs `nb` forwards in the current mode, and its trailing
validation block executes `model.eval()` without a matching
`model.train()`, so the next epoch starts in eval-mode. -/
def dropoutEpochs : Nat → Mode → Nat → List Mode
  | 0, _, _ => []
  | e + 1, m, nb => epochModes m nb ++ dropoutEpochs e Mode.eval nb

/-- The dropout training loop's training-forward modes: `model.train()`
is executed once before the epoch loop. -/
def dropoutTrainingModes (epochs nb : Nat) : List Mode :=
  dropoutEpochs epochs Mode.train nb

/-- The flattened optimizer state of a training loop: the parameter
vector and its gradient accumulator. -/
structure OptState where
  params : List ℚ
  grads : Option (List ℚ)
deriving Repr, DecidableEq

/-- `loss.backward()` on the flattened state: the single-batch gradient
`g` is accumulated into the gradient accumulator (spec §4.3). -/
def backwardS (g : List ℚ) (s : OptState) : OptState :=
  { s with grads := some (accumGrad s.grads g) }

/-- `optimizer.zero_grad()` on the flattened state (spec §4.4). -/
def zeroGradS (s : OptState) : OptState :=
  { s with grads := s.grads.map (fun g => g.map (fun _ => 0)) }

/-- `optimizer.step()` on the flattened state: the update rule `upd`
(plain SGD in `part_000`, Adam in the Part 5 loop) is applied to the
parameters using the current gradient accumulator; the accumulator
itself is not modified by a step. -/
def stepS (upd : List ℚ → List ℚ → List ℚ) (s : OptState) : OptState :=
  match s.grads with
  | none => s
  | some g => { s with params := upd s.params g }

/-- What a training step observes of the gradient machinery: the
accumulator at the start of the backward pass, the pure single-batch
gradient computed by that backward pass, and the accumulator that the
subsequent `optimizer.step()` reads. -/
structure StepObs where
  pre : Option (List ℚ)
  gRaw : List ℚ
  atStep : Option (List ℚ)

/-- One iteration of the `part_000` training loop, in the source's
order: forward + loss (folded into the batch-gradient oracle `G`),
`loss.backward()`, `optimizer.step()`, `optimizer.zero_grad()`. -/
def loopAStep (upd : List ℚ → List ℚ → List ℚ) {β : Type} (G : List ℚ → β → List ℚ)
    (s : OptState) (b : β) : OptState × StepObs :=
  let pre := s.grads
  let g := G s.params b
  let s1 := backwardS g s
  let ob : StepObs := ⟨pre, g, s1.grads⟩
  let s2 := stepS upd s1
  let s3 := zeroGradS s2
  (s3, ob)

/-- One iteration of the Part 5 Classifier training loop, in the
source's order: `optimizer.zero_grad()`, forward + loss (folded into
`G`), `loss.backward()`, `optimizer.step()`. -/
def loopBStep (upd : List ℚ → List ℚ → List ℚ) {β : Type} (G : List ℚ → β → List ℚ)
    (s : OptState) (b : β) : OptState × StepObs :=
  let s0 := zeroGradS s
  let pre := s0.grads
  let g := G s0.params b
  let s1 := backwardS g s0
  let ob : StepObs := ⟨pre, g, s1.grads⟩
  let s2 := stepS upd s1
  (s2, ob)

/-- Run a training loop body over the epoch's batches, collecting the
per-step observations. -/
def runLoop {β : Type} (body : OptState → β → OptState × StepObs) :
    OptState → List β → OptState × List StepObs
  | s, [] => (s, [])
  | s, b :: bs =>
    let p := body s b
    let rest := runLoop body p.1 bs
    (rest.1, p.2 :: rest.2)

/-- `y = xW + b` over ℝ: one affine layer, one output per weight row. -/
noncomputable def linearR (W : List (List ℝ)) (b : List ℝ) (x : List ℝ) : List ℝ :=
  List.zipWith (fun w bi => (List.zipWith (fun wi xi => wi * xi) w x).sum + bi) W b

/-- `F.relu` on one real entry. -/
noncomputable def reluR (x : ℝ) : ℝ := max x 0

/-- Modelled from the spec (§4.1): `F.log_softmax(·, dim=1)` on one row
— the log-softmax nonlinearity of the final layer,
`x ↦ x − log (Σⱼ exp xⱼ)` entrywise. -/
noncomputable def logSoftmax (row : List ℝ) : List ℝ :=
  row.map (fun x => x - Real.log ((row.map Real.exp).sum))

/-- The `Classifier` of the Part 5 notebook: fc1 784→256, fc2 256→128,
fc3 128→64, fc4 64→10, no dropout. -/
structure Classifier where
  fc1W : List (List ℝ)
  fc1b : List ℝ
  fc2W : List (List ℝ)
  fc2b : List ℝ
  fc3W : List (List ℝ)
  fc3b : List ℝ
  fc4W : List (List ℝ)
  fc4b : List ℝ

/-- `Classifier.forward` translated from the notebook:
`x = relu(fc1 x); x = relu(fc2 x); x = relu(fc3 x);
x = log_softmax(fc4 x, dim=1)` on one (already flattened) input row. -/
noncomputable def Classifier.forward (m : Classifier) (x : List ℝ) : List ℝ :=
  logSoftmax (linearR m.fc4W m.fc4b
    ((linearR m.fc3W m.fc3b
      ((linearR m.fc2W m.fc2b
        ((linearR m.fc1W m.fc1b x).map reluR)).map reluR)).map reluR))

/-- `model(images)` on a whole batch: one output row per input row. -/
noncomputable def Classifier.forwardBatch (m : Classifier) (xs : List (List ℝ)) :
    List (List ℝ) :=
  xs.map m.forward

lemma getElem?_zipWith_of_lt {α β γ : Type} (f : α → β → γ) (v : List α) (g : List β)
    (j : Nat) (hv : j < v.length) (hg : j < g.length) :
    (List.zipWith f v g)[j]? = some (f v[j] g[j]) := by
  rw [List.getElem?_zipWith', List.getElem?_eq_getElem hv, List.getElem?_eq_getElem hg]
  rfl

lemma zipWith_add_map_zero (h g : List ℚ) (hl : h.length = g.length) :
    List.zipWith (fun a b => a + b) (h.map fun _ => (0 : ℚ)) g = g := by
  induction h generalizing g with
  | nil =>
    cases g with
    | nil => rfl
    | cons b s => simp at hl
  | cons a t ih =>
    cases g with
    | nil => simp at hl
    | cons b s =>
      simp only [List.map_cons, List.zipWith_cons_cons, zero_add]
      rw [ih s (by simpa using hl)]

/-- C1: one `optimizer.step()` of `optim.SGD(model.parameters(), lr=α)`
after gradients are populated updates every parameter tensor of the
model elementwise and in place to `p_new = p_old − α·g`. -/
theorem c1_sgd_step_update (α : ℚ) (ps : List Param) (i j : Nat) (p : Param) (g : List ℚ)
    (hp : ps[i]? = some p) (hg : p.grad = some g) (hlen : g.length = p.value.length)
    (hj : j < p.value.length) :
    (sgdStepModel α ps)[i]? = some (sgdStepP α p) ∧
    (sgdStepP α p).value[j]? = some (p.value.getD j 0 - α * g.getD j 0) ∧
    (sgdStepP α p).value.length = p.value.length := by
  obtain ⟨v, gr⟩ := p
  have hg' : gr = some g := hg
  subst hg'
  simp only [Param.grad] at hlen hj ⊢
  refine ⟨?_, ?_, ?_⟩
  · rw [sgdStepModel, List.getElem?_map, hp]
    rfl
  · have hj' : j < g.length := by omega
    show (List.zipWith (fun v gi => v - α * gi) v g)[j]? = some (v.getD j 0 - α * g.getD j 0)
    rw [getElem?_zipWith_of_lt _ v g j hj hj',
      List.getD_eq_getElem v 0 hj, List.getD_eq_getElem g 0 hj']
  · show (List.zipWith (fun v gi => v - α * gi) v g).length = v.length
    rw [List.length_zipWith, hlen, min_self]

/-- Witness for C1 at a concrete one-tensor model. -/
theorem c1_sgd_step_update_witness :
    (([⟨[1, 2], some [4, 6]⟩] : List Param)[0]? = some ⟨[1, 2], some [4, 6]⟩) ∧
    ((⟨[1, 2], some [4, 6]⟩ : Param).grad = some [4, 6]) ∧
    (([4, 6] : List ℚ).length = ([1, 2] : List ℚ).length) ∧
    (0 < ([1, 2] : List ℚ).length) ∧
    ((sgdStepModel (1/2) [⟨[1, 2], some [4, 6]⟩])[0]? =
        some (sgdStepP (1/2) ⟨[1, 2], some [4, 6]⟩) ∧
      (sgdStepP (1/2) (⟨[1, 2], some [4, 6]⟩ : Param)).value[0]? =
        some (([1, 2] : List ℚ).getD 0 0 - (1/2) * ([4, 6] : List ℚ).getD 0 0) ∧
      (sgdStepP (1/2) (⟨[1, 2], some [4, 6]⟩ : Param)).value.length =
        ([1, 2] : List ℚ).length) :=
  ⟨rfl, rfl, rfl, by decide,
    c1_sgd_step_update (1/2) [⟨[1, 2], some [4, 6]⟩] 0 0 ⟨[1, 2], some [4, 6]⟩ [4, 6]
      rfl rfl rfl (by decide)⟩

/-- C4: calling `zero_grad()` before the backward pass makes the
accumulator afterwards equal to the single-batch gradient; two
consecutive backward calls with no intervening reset leave the sum of
the two batch gradients. -/
theorem c4_grad_accumulation (p : Param) (g1 g2 : List ℚ)
    (hlen : ∀ h, p.grad = some h → h.length = g1.length) :
    (backwardP g1 (zeroGradP p)).grad = some g1 ∧
    (p.grad = none →
      (backwardP g2 (backwardP g1 p)).grad = some (List.zipWith (fun a b => a + b) g1 g2)) := by
  constructor
  · obtain ⟨v, gr⟩ := p
    cases gr with
    | none => rfl
    | some h =>
      have hl : h.length = g1.length := hlen h rfl
      show some (accumGrad (some (h.map fun _ => 0)) g1) = some g1
      show some (List.zipWith (fun a b => a + b) (h.map fun _ => 0) g1) = some g1
      rw [zipWith_add_map_zero h g1 hl]
  · intro hnone
    obtain ⟨v, gr⟩ := p
    have hg' : gr = none := hnone
    subst hg'
    rfl

/-- Witness for C4 at a concrete fresh tensor. -/
theorem c4_grad_accumulation_witness :
    (∀ h, (⟨[1, 2], (none : Option (List ℚ))⟩ : Param).grad = some h →
      h.length = ([2, 3] : List ℚ).length) ∧
    ((backwardP [2, 3] (zeroGradP ⟨[1, 2], none⟩)).grad = some [2, 3] ∧
      ((⟨[1, 2], (none : Option (List ℚ))⟩ : Param).grad = none →
        (backwardP [4, 1] (backwardP [2, 3] ⟨[1, 2], none⟩)).grad =
          some (List.zipWith (fun a b => a + b) [2, 3] [4, 1]))) :=
  ⟨fun _ hh => Option.noConfusion hh,
    c4_grad_accumulation ⟨[1, 2], none⟩ [2, 3] [4, 1] (fun _ hh => Option.noConfusion hh)⟩

lemma nllPick_ok (rows : List (List ℚ)) (ls : List Nat)
    (h : ∀ rl ∈ rows.zip ls, rl.2 < rl.1.length) :
    nllPick rows ls = .ok ((rows.zip ls).map (fun rl => -(rl.1.getD rl.2 0))) := by
  induction rows generalizing ls with
  | nil => simp [nllPick]
  | cons r rs ih =>
    cases ls with
    | nil => simp [nllPick]
    | cons l ls' =>
      have hl : l < r.length := h (r, l) (by simp [List.zip_cons_cons])
      have hrl : r[l]? = some r[l] := List.getElem?_eq_getElem hl
      have htail := ih ls' (fun rl hmem => h rl (by simp [List.zip_cons_cons, hmem]))
      simp only [nllPick, hrl, htail, Except.map, List.zip_cons_cons, List.map_cons]
      rw [List.getD_eq_getElem r 0 hl]

lemma nllPick_error (rows : List (List ℚ)) (ls : List Nat)
    (h : ∃ rl ∈ rows.zip ls, ¬ rl.2 < rl.1.length) :
    nllPick rows ls = .error "IndexError" := by
  induction rows generalizing ls with
  | nil => simp at h
  | cons r rs ih =>
    cases ls with
    | nil => simp at h
    | cons l ls' =>
      by_cases hl : l < r.length
      · have htail : ∃ rl ∈ rs.zip ls', ¬ rl.2 < rl.1.length := by
          obtain ⟨rl, hmem, hout⟩ := h
          rcases (by simpa [List.zip_cons_cons] using hmem :
              rl = (r, l) ∨ rl ∈ rs.zip ls') with h1 | h2
          · subst h1; exact absurd hl hout
          · exact ⟨rl, h2, hout⟩
        have hrl : r[l]? = some r[l] := List.getElem?_eq_getElem hl
        simp only [nllPick, hrl, ih ls' htail, Except.map]
      · have hrl : r[l]? = none := List.getElem?_eq_none (by omega)
        simp only [nllPick, hrl]

/-- C2: for a batch of log-probability rows and in-range labels,
`nn.NLLLoss` returns the arithmetic mean over the batch of the negated
log-probability entry at each example's true-label index. -/
theorem c2_nll_loss_mean (logps : List (List ℚ)) (labels : List Nat)
    (hlen : labels.length = logps.length) (hne : 1 ≤ logps.length)
    (hrange : ∀ rl ∈ logps.zip labels, rl.2 < rl.1.length) :
    nllLoss logps labels =
      .ok ((((logps.zip labels).map (fun rl => -(rl.1.getD rl.2 0))).sum)
        / (logps.length : ℚ)) := by
  rw [nllLoss, nllPick_ok logps labels hrange]
  simp only [Except.map, List.length_map, List.length_zip, hlen, min_self]

/-- Witness for C2 at a concrete two-example batch. -/
theorem c2_nll_loss_mean_witness :
    (([0, 1] : List Nat).length = ([[-1, -2], [-3, -4]] : List (List ℚ)).length) ∧
    (1 ≤ ([[-1, -2], [-3, -4]] : List (List ℚ)).length) ∧
    (∀ rl ∈ ([[-1, -2], [-3, -4]] : List (List ℚ)).zip [0, 1], rl.2 < rl.1.length) ∧
    nllLoss [[-1, -2], [-3, -4]] [0, 1] =
      .ok (((([[-1, -2], [-3, -4]] : List (List ℚ)).zip [0, 1]).map
          (fun rl => -(rl.1.getD rl.2 0))).sum
        / (([[-1, -2], [-3, -4]] : List (List ℚ)).length : ℚ)) :=
  ⟨rfl, by decide, by decide,
    c2_nll_loss_mean [[-1, -2], [-3, -4]] [0, 1] rfl (by decide) (by decide)⟩

/-- C7: the negative-log-likelihood evaluator fails with an
IndexError-class condition exactly when some label index falls outside
`[0, num_classes)`; with all labels in range it succeeds. -/
theorem c7_nll_label_range (logps : List (List ℚ)) (labels : List Nat)
    (hlen : labels.length = logps.length) :
    ((∀ rl ∈ logps.zip labels, rl.2 < rl.1.length) →
      ∃ q, nllLoss logps labels = .ok q) ∧
    ((∃ rl ∈ logps.zip labels, ¬ rl.2 < rl.1.length) →
      nllLoss logps labels = .error "IndexError") := by
  constructor
  · intro h
    exact ⟨_, by rw [nllLoss, nllPick_ok logps labels h]; rfl⟩
  · intro h
    rw [nllLoss, nllPick_error logps labels h]
    rfl

/-- Witness for C7 at a concrete batch with an out-of-range label. -/
theorem c7_nll_label_range_witness :
    (([5] : List Nat).length = ([[-1, -2]] : List (List ℚ)).length) ∧
    ((∀ rl ∈ ([[-1, -2]] : List (List ℚ)).zip [5], rl.2 < rl.1.length) →
      ∃ q, nllLoss [[-1, -2]] [5] = .ok q) ∧
    ((∃ rl ∈ ([[-1, -2]] : List (List ℚ)).zip [5], ¬ rl.2 < rl.1.length) →
      nllLoss [[-1, -2]] [5] = .error "IndexError") :=
  ⟨rfl, (c7_nll_label_range [[-1, -2]] [5] rfl).1, (c7_nll_label_range [[-1, -2]] [5] rfl).2⟩

lemma sum_map_exp_pos (l : List ℝ) (hne : l ≠ []) : 0 < (l.map Real.exp).sum := by
  cases l with
  | nil => exact absurd rfl hne
  | cons a t =>
    simp only [List.map_cons, List.sum_cons]
    have h1 : 0 < Real.exp a := Real.exp_pos a
    have h2 : 0 ≤ (t.map Real.exp).sum := by
      apply List.sum_nonneg
      intro x hx
      obtain ⟨z, _, rfl⟩ := List.mem_map.mp hx
      exact le_of_lt (Real.exp_pos z)
    linarith

lemma logSoftmax_sum_exp (l : List ℝ) (hne : l ≠ []) :
    ((logSoftmax l).map Real.exp).sum = 1 := by
  have hS : 0 < (l.map Real.exp).sum := sum_map_exp_pos l hne
  rw [logSoftmax, List.map_map]
  have hfun : (Real.exp ∘ fun x => x - Real.log ((l.map Real.exp).sum))
      = fun x => Real.exp x * ((l.map Real.exp).sum)⁻¹ := by
    funext x
    simp [Function.comp, Real.exp_sub, Real.exp_log hS, div_eq_mul_inv]
  rw [hfun, List.sum_map_mul_right, mul_inv_cancel₀ (ne_of_gt hS)]

lemma logSoftmax_nonpos (l : List ℝ) (hne : l ≠ []) : ∀ y ∈ logSoftmax l, y ≤ 0 := by
  intro y hy
  rw [logSoftmax] at hy
  obtain ⟨x, hx, rfl⟩ := List.mem_map.mp hy
  have hS : 0 < (l.map Real.exp).sum := sum_map_exp_pos l hne
  have hle : Real.exp x ≤ (l.map Real.exp).sum := by
    apply List.single_le_sum
    · intro y hy2
      obtain ⟨z, _, rfl⟩ := List.mem_map.mp hy2
      exact le_of_lt (Real.exp_pos z)
    · exact List.mem_map.mpr ⟨x, hx, rfl⟩
  have hlog : x ≤ Real.log ((l.map Real.exp).sum) := (Real.le_log_iff_exp_le hS).mpr hle
  linarith

lemma logSoftmax_valid (l : List ℝ) (hne : l ≠ []) :
    (∀ y ∈ logSoftmax l, y ≤ 0) ∧ |(((logSoftmax l).map Real.exp).sum) - 1| ≤ 1 / 10000 := by
  refine ⟨logSoftmax_nonpos l hne, ?_⟩
  rw [logSoftmax_sum_exp l hne]
  norm_num

/-- C3: on every valid batch, each row of the Classifier's forward
output is a valid log-probability vector: every entry ≤ 0 and the sum
of the exponentials of the row equals 1 within 1e-4. -/
theorem c3_forward_rows_log_prob (m : Classifier) (batch : List (List ℝ))
    (hW : m.fc4W.length = 10) (hb : m.fc4b.length = 10)
    (hbatch : 1 ≤ batch.length) (hwidth : ∀ x ∈ batch, x.length = 784) :
    ∀ row ∈ Classifier.forwardBatch m batch,
      (∀ y ∈ row, y ≤ 0) ∧ |((row.map Real.exp).sum) - 1| ≤ 1 / 10000 := by
  intro row hrow
  rw [Classifier.forwardBatch] at hrow
  obtain ⟨x, hx, rfl⟩ := List.mem_map.mp hrow
  rw [Classifier.forward]
  apply logSoftmax_valid
  intro hnil
  have hl := congrArg List.length hnil
  rw [linearR, List.length_zipWith, hW, hb, min_self, List.length_nil] at hl
  exact absurd hl (by decide)

/-- Witness for C3 at a concrete 10-class model and one-example batch. -/
theorem c3_forward_rows_log_prob_witness :
    ((⟨[], [], [], [], [], [], List.replicate 10 [], List.replicate 10 0⟩ :
        Classifier).fc4W.length = 10) ∧
    ((⟨[], [], [], [], [], [], List.replicate 10 [], List.replicate 10 0⟩ :
        Classifier).fc4b.length = 10) ∧
    (1 ≤ ([List.replicate 784 (0 : ℝ)] : List (List ℝ)).length) ∧
    (∀ x ∈ ([List.replicate 784 (0 : ℝ)] : List (List ℝ)), x.length = 784) ∧
    (∀ row ∈ Classifier.forwardBatch
        ⟨[], [], [], [], [], [], List.replicate 10 [], List.replicate 10 0⟩
        [List.replicate 784 (0 : ℝ)],
      (∀ y ∈ row, y ≤ 0) ∧ |((row.map Real.exp).sum) - 1| ≤ 1 / 10000) :=
  ⟨List.length_replicate 10 [], List.length_replicate 10 0, by decide,
    fun x hx => by
      rw [List.mem_singleton] at hx
      subst hx
      exact List.length_replicate 784 0,
    c3_forward_rows_log_prob
      ⟨[], [], [], [], [], [], List.replicate 10 [], List.replicate 10 0⟩
      [List.replicate 784 (0 : ℝ)]
      (List.length_replicate 10 []) (List.length_replicate 10 0) (by decide)
      (fun x hx => by
        rw [List.mem_singleton] at hx
        subst hx
        exact List.length_replicate 784 0)⟩

/-- C5 (code bug): the Classifier-loop validation block consumes only
the head batch of the held-out loader — every later batch can be
replaced arbitrarily without changing the computed accuracy, so the
sweep does not process each batch of the held-out Data Source (and the
block's translation contains no gradient-suspension scope at all). -/
theorem c5_validation_single_batch (e : ℚ → ℚ) (fwd : List (List ℚ) → List (List ℚ))
    (b : List (List ℚ) × List Nat) (rest1 rest2 : List (List (List ℚ) × List Nat)) :
    classifierValidation e fwd (b :: rest1) = classifierValidation e fwd (b :: rest2) :=
  rfl

/-- C6 (code bug): in the dropout training loop the per-epoch
validation block executes `model.eval()` and the model is never
switched back to train-mode, so from the second epoch on every
training-step forward pass runs in eval-mode. -/
theorem c6_training_forward_in_eval_mode (epochs nb : Nat)
    (he : 2 ≤ epochs) (hnb : 1 ≤ nb) :
    (dropoutTrainingModes epochs nb)[nb]? = some Mode.eval := by
  obtain ⟨e, rfl⟩ : ∃ e, epochs = e + 2 := ⟨epochs - 2, by omega⟩
  obtain ⟨k, rfl⟩ : ∃ k, nb = k + 1 := ⟨nb - 1, by omega⟩
  rw [dropoutTrainingModes, dropoutEpochs]
  rw [List.getElem?_append_right]
  · rw [epochModes, List.length_replicate, Nat.sub_self, dropoutEpochs, epochModes,
      List.replicate_succ, List.cons_append]
    simp
  · rw [epochModes, List.length_replicate]

/-- Witness for C6 at the notebook's parameters (30 epochs; the first
training forward of the second epoch). -/
theorem c6_training_forward_in_eval_mode_witness :
    (2 ≤ 30) ∧ (1 ≤ 938) ∧ (dropoutTrainingModes 30 938)[938]? = some Mode.eval :=
  ⟨by decide, by decide, c6_training_forward_in_eval_mode 30 938 (by decide) (by decide)⟩

lemma forwardBatch_eval_rng (lsm : List ℚ → List ℚ) (net : Network) (rng : List Bool)
    (xs : List (List ℚ)) :
    (Network.forwardBatch lsm net Mode.eval rng xs).2 = rng := by
  induction xs generalizing rng with
  | nil => rfl
  | cons x xs ih =>
    show (Network.forwardBatch lsm net Mode.eval
        ((Network.forward lsm net Mode.eval rng x).2) xs).2 = rng
    rw [show (Network.forward lsm net Mode.eval rng x).2 = rng from rfl]
    exact ih rng

/-- C8: the evaluation sweep, run on a session held in eval-mode (so
dropout is disabled), preserves the session state, and running it twice
in a row with no training in between yields the identical accuracy. -/
theorem c8_sweep_idempotent (lsm : List ℚ → List ℚ) (e : ℚ → ℚ) (s : Session)
    (tl : List (List (List ℚ) × List Nat)) (h : s.mode = Mode.eval) :
    (evalSweep lsm e s tl).2 = s ∧
    (evalSweep lsm e (evalSweep lsm e s tl).2 tl).1 = (evalSweep lsm e s tl).1 := by
  obtain ⟨net, mode, rng⟩ := s
  have hm : mode = Mode.eval := h
  subst hm
  have hstate : (evalSweep lsm e ⟨net, Mode.eval, rng⟩ tl).2 = ⟨net, Mode.eval, rng⟩ := by
    show (⟨net, Mode.eval,
        (Network.forwardBatch lsm net Mode.eval rng (tl.headD ([], [])).1).2⟩ : Session) =
      ⟨net, Mode.eval, rng⟩
    rw [forwardBatch_eval_rng]
  exact ⟨hstate, by rw [hstate]⟩

/-- Witness for C8 at a concrete eval-mode session. -/
theorem c8_sweep_idempotent_witness :
    ((⟨⟨[], [], [], [], [], [], [], []⟩, Mode.eval, [true]⟩ : Session).mode = Mode.eval) ∧
    ((evalSweep (fun l => l) (fun q => q)
        ⟨⟨[], [], [], [], [], [], [], []⟩, Mode.eval, [true]⟩ [([[1]], [0])]).2 =
      ⟨⟨[], [], [], [], [], [], [], []⟩, Mode.eval, [true]⟩ ∧
    (evalSweep (fun l => l) (fun q => q)
        ((evalSweep (fun l => l) (fun q => q)
          ⟨⟨[], [], [], [], [], [], [], []⟩, Mode.eval, [true]⟩ [([[1]], [0])]).2)
        [([[1]], [0])]).1 =
      (evalSweep (fun l => l) (fun q => q)
        ⟨⟨[], [], [], [], [], [], [], []⟩, Mode.eval, [true]⟩ [([[1]], [0])]).1) :=
  ⟨rfl, c8_sweep_idempotent (fun l => l) (fun q => q)
    ⟨⟨[], [], [], [], [], [], [], []⟩, Mode.eval, [true]⟩ [([[1]], [0])] rfl⟩

/-- C10: the printed accuracy of the dropout model's per-epoch
validation block is the match fraction of the argmax of the
exponentials of the final training batch's output rows against that
training batch's labels; the forward pass on the freshly fetched test
batch does not contribute, so the reported value is independent of the
test data. -/
theorem c10_accuracy_ignores_test_data (lsm : List ℚ → List ℚ) (e : ℚ → ℚ) (s : Session)
    (output : List (List ℚ)) (labels : List Nat)
    (t1 t2 : List (List (List ℚ) × List Nat)) :
    (dropoutValidationBlock lsm e s output labels t1).1 =
      (dropoutValidationBlock lsm e s output labels t2).1 ∧
    (dropoutValidationBlock lsm e s output labels t1).1 =
      accuracyOf ((output.map (List.map e)).map argmax) labels :=
  ⟨rfl, rfl⟩

lemma map_const_zero (l : List ℚ) : l.map (fun _ => (0 : ℚ)) = List.replicate l.length 0 := by
  induction l with
  | nil => rfl
  | cons a t ih => simp [List.replicate_succ, ih]

lemma zipWith_add_replicate_zero (g : List ℚ) (n : Nat) (h : g.length = n) :
    List.zipWith (fun a b => a + b) (List.replicate n 0) g = g := by
  subst h
  induction g with
  | nil => rfl
  | cons a t ih =>
    simp only [List.length_cons, List.replicate_succ, List.zipWith_cons_cons, zero_add]
    rw [ih]

lemma loopA_trace {β : Type} (upd : List ℚ → List ℚ → List ℚ) (G : List ℚ → β → List ℚ)
    (hG : ∀ p b, (G p b).length = p.length)
    (hupd : ∀ p g, (upd p g).length = p.length) (n : Nat) :
    ∀ (bs : List β) (s : OptState), s.params.length = n →
      (s.grads = none ∨ s.grads = some (List.replicate n 0)) →
      ∀ ob ∈ (runLoop (loopAStep upd G) s bs).2,
        (ob.pre = none ∨ ob.pre = some (List.replicate n 0)) ∧ ob.atStep = some ob.gRaw := by
  intro bs
  induction bs with
  | nil =>
    intro s _ _ ob hob
    simp [runLoop] at hob
  | cons b bs ih =>
    intro s hp hclear ob hob
    have hob' : ob = (loopAStep upd G s b).2 ∨
        ob ∈ (runLoop (loopAStep upd G) (loopAStep upd G s b).1 bs).2 :=
      List.mem_cons.mp hob
    set g := G s.params b with hgdef
    have hglen : g.length = n := by rw [hgdef, hG, hp]
    have hacc : accumGrad s.grads g = g := by
      rcases hclear with hc | hc
      · rw [hc]
        rfl
      · rw [hc]
        exact zipWith_add_replicate_zero g n hglen
    rcases hob' with hhead | htail
    · subst hhead
      refine ⟨hclear, ?_⟩
      show some (accumGrad s.grads g) = some g
      rw [hacc]
    · refine ih (loopAStep upd G s b).1 ?_ ?_ ob htail
      · show (upd s.params (accumGrad s.grads g)).length = n
        rw [hacc, hupd, hp]
      · right
        show some ((accumGrad s.grads g).map (fun _ => 0)) = some (List.replicate n 0)
        rw [hacc, map_const_zero, hglen]

lemma loopB_trace {β : Type} (upd : List ℚ → List ℚ → List ℚ) (G : List ℚ → β → List ℚ)
    (hG : ∀ p b, (G p b).length = p.length)
    (hupd : ∀ p g, (upd p g).length = p.length) (n : Nat) :
    ∀ (bs : List β) (s : OptState), s.params.length = n →
      (s.grads = none ∨ ∃ h, s.grads = some h ∧ h.length = n) →
      ∀ ob ∈ (runLoop (loopBStep upd G) s bs).2,
        (ob.pre = none ∨ ob.pre = some (List.replicate n 0)) ∧ ob.atStep = some ob.gRaw := by
  intro bs
  induction bs with
  | nil =>
    intro s _ _ ob hob
    simp [runLoop] at hob
  | cons b bs ih =>
    intro s hp hlen ob hob
    have hob' : ob = (loopBStep upd G s b).2 ∨
        ob ∈ (runLoop (loopBStep upd G) (loopBStep upd G s b).1 bs).2 :=
      List.mem_cons.mp hob
    have hclear : (zeroGradS s).grads = none ∨
        (zeroGradS s).grads = some (List.replicate n 0) := by
      rcases hlen with hc | ⟨h, hc, hl⟩
      · left
        simp [zeroGradS, hc]
      · right
        rw [← hl]
        simp [zeroGradS, hc, map_const_zero]
    set g := G (zeroGradS s).params b with hgdef
    have hglen : g.length = n := by
      rw [hgdef, hG]
      exact hp
    have hacc : accumGrad (zeroGradS s).grads g = g := by
      rcases hclear with hc | hc
      · rw [hc]
        rfl
      · rw [hc]
        exact zipWith_add_replicate_zero g n hglen
    rcases hob' with hhead | htail
    · subst hhead
      refine ⟨hclear, ?_⟩
      show some (accumGrad (zeroGradS s).grads g) = some g
      rw [hacc]
    · refine ih (loopBStep upd G s b).1 ?_ ?_ ob htail
      · show (upd (zeroGradS s).params (accumGrad (zeroGradS s).grads g)).length = n
        rw [hacc, hupd]
        exact hp
      · right
        exact ⟨accumGrad (zeroGradS s).grads g, rfl, by rw [hacc]; exact hglen⟩

/-- C9: in both embedded training loops (`part_000`: backward, step,
zero-grad; Part 5 Classifier loop: zero-grad, backward, step), starting
from a fresh model whose accumulators are absent, every backward pass
begins with each gradient accumulator zero (or absent), and the
accumulator read by every `optimizer.step()` equals exactly that step's
single-batch gradient — no gradient value accumulates across two
training steps. -/
theorem c9_zero_grad_once_per_step {β : Type} (upd : List ℚ → List ℚ → List ℚ)
    (G : List ℚ → β → List ℚ) (s0 : OptState) (bs : List β)
    (h0 : s0.grads = none)
    (hG : ∀ p b, (G p b).length = p.length)
    (hupd : ∀ p g, (upd p g).length = p.length) :
    (∀ ob ∈ (runLoop (loopAStep upd G) s0 bs).2,
      (ob.pre = none ∨ ob.pre = some (List.replicate s0.params.length 0)) ∧
        ob.atStep = some ob.gRaw) ∧
    (∀ ob ∈ (runLoop (loopBStep upd G) s0 bs).2,
      (ob.pre = none ∨ ob.pre = some (List.replicate s0.params.length 0)) ∧
        ob.atStep = some ob.gRaw) :=
  ⟨loopA_trace upd G hG hupd s0.params.length bs s0 rfl (Or.inl h0),
    loopB_trace upd G hG hupd s0.params.length bs s0 rfl (Or.inl h0)⟩

/-- Witness for C9 at a concrete two-batch run. -/
theorem c9_zero_grad_once_per_step_witness :
    ((⟨[3, 4], none⟩ : OptState).grads = none) ∧
    (∀ (p : List ℚ) (b : Nat),
      ((fun (p : List ℚ) (_ : Nat) => p.map (fun _ => (1 : ℚ))) p b).length = p.length) ∧
    (∀ (p g : List ℚ), ((fun (p : List ℚ) (_ : List ℚ) => p) p g).length = p.length) ∧
    ((∀ ob ∈ (runLoop
        (loopAStep (fun p _ => p) (fun (p : List ℚ) (_ : Nat) => p.map (fun _ => (1 : ℚ))))
        ⟨[3, 4], none⟩ [0, 0]).2,
      (ob.pre = none ∨
          ob.pre = some (List.replicate (⟨[3, 4], none⟩ : OptState).params.length 0)) ∧
        ob.atStep = some ob.gRaw) ∧
    (∀ ob ∈ (runLoop
        (loopBStep (fun p _ => p) (fun (p : List ℚ) (_ : Nat) => p.map (fun _ => (1 : ℚ))))
        ⟨[3, 4], none⟩ [0, 0]).2,
      (ob.pre = none ∨
          ob.pre = some (List.replicate (⟨[3, 4], none⟩ : OptState).params.length 0)) ∧
        ob.atStep = some ob.gRaw)) :=
  ⟨rfl, fun p _ => by simp, fun _ _ => rfl,
    c9_zero_grad_once_per_step (fun p _ => p)
      (fun (p : List ℚ) (_ : Nat) => p.map (fun _ => (1 : ℚ))) ⟨[3, 4], none⟩ [0, 0]
      rfl (fun p _ => by simp) (fun _ _ => rfl)⟩
